import Mathlib

/-!
Verification of the typstfmt CLI dispatch layer (src/main.rs).

The source is a command-line front end around an external pure formatting
function `format : &str -> Config -> String`.  We embed the dispatch layer
shallowly: the formatter, the configuration value and the TOML parser are
parameters (they live in the external crate `typstfmt_lib`), the filesystem
and stdin are explicit functional models, and every side effect of the Rust
program (println, file writes, stdout writes, file opens) is recorded as an
event in an explicit trace.  Process termination is modelled by `ExitKind`:
`main` returning `Ok(())` exits 0; `std::process::exit(n)` exits `n`; `main`
returning `Err(lexopt::Error)` makes the Rust runtime exit with code 1
(`ExitCode::FAILURE`); a panic unwinding out of `main` makes the runtime
exit with code 101.
-/

namespace Typstfmt

/-- Mirrors `const CONFIG_FILE_NAME: &str = "typstfmt.toml";`. -/
def configFileName : String := "typstfmt.toml"

/-- Stand-in for `const VERSION: &str = env!("TYPSTFMT_VERSION");` (the actual
value is injected at build time and is irrelevant to every claim). -/
def versionText : String := "TYPSTFMT_VERSION"

/-- Abridged stand-in for the `HELP` usage constant (its exact wording is
irrelevant to every claim; only the fact that help printing early-exits with
status 0 matters). -/
def helpText : String := "Format Typst code -- usage: typstfmt [options] [file...]"

/-- Mirrors `enum Inputs` with variants `Stdin` and `Files(Vec<OsString>)`; paths are modelled as `String`. -/
inductive Inputs where
  | stdin : Inputs
  | files : List String → Inputs
deriving DecidableEq

/-- Mirrors `struct Input` with fields `name` and `content`. -/
structure Input where
  name : String
  content : String
deriving DecidableEq

/-- Mirrors `enum Output` with variants `None`, `Check`, `Stdout`, `File(OsString)`. -/
inductive Output where
  | none : Output
  | check : Output
  | stdout : Output
  | file : String → Output
deriving DecidableEq

/-- Test for `matches!(output, Output::File(_))`. -/
def Output.isFile : Output → Bool
  | Output.file _ => true
  | _ => false

/-- Test for `matches!(output, Output::None)`. -/
def Output.isNone : Output → Bool
  | Output.none => true
  | _ => false

/-- Test for `matches!(inputs, Inputs::Stdin)`. -/
def Inputs.isStdin : Inputs → Bool
  | Inputs.stdin => true
  | _ => false

/-- Result of `File::options().read(true).open(path)` followed by
`read_to_string`: the open itself can fail, the read can fail after a
successful open, or the whole file content is obtained. -/
inductive FileReadResult where
  | openErr : FileReadResult
  | readErr : FileReadResult
  | ok : String → FileReadResult
deriving DecidableEq

def FileReadResult.isOk : FileReadResult → Bool
  | FileReadResult.ok _ => true
  | _ => false

/-- Functional model of the filesystem as the program observes it:
`read p` is what opening `p` for reading and reading it to a string yields,
and `createNewOk p` is whether `File::options().create_new(true)` on `p`
succeeds (i.e. whether the path is free).  Writes through
`create(true).write(true).truncate(true)` are modelled as always succeeding
and are recorded in the event trace. -/
structure FS where
  read : String → FileReadResult
  createNewOk : String → Bool

/-- One observable side effect of the program.  `formatCall` records each
invocation of the external formatter together with the `Config` value passed
to it; `fileWrite` records a create-or-truncate destructive write;
`configOpened` records the successful open of the configuration file (kept
distinct from input-document opens, which are `openedForRead`). -/
inductive Event (Config : Type) where
  | msg : String → Event Config
  | configOpened : String → Event Config
  | readStdinEv : Event Config
  | openedForRead : String → Event Config
  | formatCall : String → Config → Event Config
  | fileWrite : String → String → Event Config
  | stdoutWrite : String → Event Config
deriving DecidableEq

/-- Events that touch an input document or an output destination: reading
stdin, opening an input file, calling the formatter, writing a file, writing
stdout.  Informational messages and the config-file open do not count. -/
def Event.touchesDoc {Config : Type} : Event Config → Bool
  | Event.readStdinEv => true
  | Event.openedForRead _ => true
  | Event.formatCall _ _ => true
  | Event.fileWrite _ _ => true
  | Event.stdoutWrite _ => true
  | _ => false

/-- How the process terminates. -/
inductive ExitKind where
  | ok : ExitKind
  | status : Nat → ExitKind
  | argErr : ExitKind
  | panicked : ExitKind
deriving DecidableEq

/-- The numeric process exit status each termination kind produces under the
Rust runtime: `Ok(())` from `main` is 0; `std::process::exit(n)` is `n`;
`Err(e)` from a `main` returning `Result` is `ExitCode::FAILURE` = 1; a
panic that unwinds out of `main` terminates the process with code 101. -/
def exitCode : ExitKind → Nat
  | ExitKind.ok => 0
  | ExitKind.status n => n
  | ExitKind.argErr => 1
  | ExitKind.panicked => 101

/-- Trace of events plus how the process ended. -/
structure RunResult (Config : Type) where
  events : List (Event Config)
  exit : ExitKind
deriving DecidableEq

/-- Rust's `{:?}` debug rendering of a string (quotes around it; escaping of
exotic characters is not modelled). -/
def q (s : String) : String := "\"" ++ s ++ "\""

/-- Display of `lexopt`'s unexpected-argument error, printed by the
`_ => { println!("{}", arg.unexpected()); ... }` arm. -/
def unexpectedText (tok : String) : String := "invalid option " ++ q tok

/-- The parsed command-line tokens, as `lexopt` hands them to the `while` loop
in `main`.  `outputFlag`/`configFlag` carry the result of `parser.value()?`:
`Option.none` models a missing value, which `?` turns into an early
`Err(lexopt::Error)` return from `main`. -/
inductive Arg where
  | version : Arg
  | help : Arg
  | makeDefaultConfig : Arg
  | value : String → Arg
  | stdoutFlag : Arg
  | outputFlag : Option String → Arg
  | verboseFlag : Arg
  | configFlag : Option String → Arg
  | checkFlag : Arg
  | unexpected : String → Arg
deriving DecidableEq

/-- Mirrors `Output::write(&self, input, formatted, verbose) -> Result<(), ()>`.
Returns the events the call emits and whether it returned `Err(())` (only
the `Check` variant ever does, on a mismatch).  The unguarded
`println!("file: {path:?} up to date.")` of the `None` branch is modelled
exactly as written: it is NOT gated on `verbose`. -/
def Output.write {Config : Type} (out : Output) (inp : Input) (formatted : String)
    (verbose : Bool) : List (Event Config) × Bool :=
  match out with
  | Output.none =>
      if formatted = inp.content then
        ([Event.msg ("file: " ++ q inp.name ++ " up to date.")], false)
      else
        (Event.fileWrite inp.name formatted ::
          (if verbose then [Event.msg ("file: " ++ q inp.name ++ " overwritten.")] else []),
         false)
  | Output.check =>
      if inp.content ≠ formatted then
        ((if verbose then [Event.msg (inp.name ++ " needs formatting.")] else []), true)
      else
        ((if verbose then [Event.msg (inp.name ++ " is already formatted.")] else []), false)
  | Output.stdout =>
      ((if verbose then [Event.msg ("=== " ++ q inp.name ++ " ===")] else []) ++
        [Event.stdoutWrite formatted], false)
  | Output.file dest =>
      ([Event.fileWrite dest formatted], false)

/-- Everything `main` needs from the outside world and from the external
`typstfmt_lib` crate: the pure formatter, the default `Config`, the TOML
parser (`Option.none` = parse error), the filesystem,
and the full content of stdin (`Option.none` = `read_to_string` fails, which
the code turns into a panic via `expect`). -/
structure RunInput (Config : Type) where
  format : String → Config → String
  defaultConfig : Config
  fromToml : String → Option Config
  fs : FS
  stdinText : Option String

/-- Outcome of the argument-parsing `while` loop in `main`. -/
inductive ArgPhase (Config : Type) where
  | earlyOk : List (Event Config) → ArgPhase Config
  | panicked : List (Event Config) → ArgPhase Config
  | missingValue : List (Event Config) → ArgPhase Config
  | proceed : Inputs → Output → Bool → String → List (Event Config) → ArgPhase Config
deriving DecidableEq

/-- The `while let Some(arg) = parser.next()?` loop of `main`, threading the
four mutable locals (`inputs`, `output`, `verbose`, `config_file`) and the
event trace. `version`, `help`, `make-default-config` and the unexpected-
argument arm each `return Ok(())` immediately; a missing flag value
propagates a `lexopt::Error` out of `main` via `?`. -/
def argLoop {Config : Type} (fs : FS) : List Arg → Inputs → Output → Bool → String →
    List (Event Config) → ArgPhase Config
  | [], inp, out, vb, cf, evs => ArgPhase.proceed inp out vb cf evs
  | Arg.version :: _, _, _, _, _, evs =>
      ArgPhase.earlyOk (evs ++ [Event.msg ("version: " ++ versionText)])
  | Arg.help :: _, _, _, _, _, evs =>
      ArgPhase.earlyOk (evs ++ [Event.msg helpText])
  | Arg.makeDefaultConfig :: _, _, _, _, _, evs =>
      -- `Config::default_toml()` is external; its text is modelled by the
      -- uninterpreted constant "DEFAULT_TOML" (no claim depends on it).
      if fs.createNewOk configFileName then
        ArgPhase.earlyOk (evs ++
          [Event.fileWrite configFileName ("DEFAULT_TOML"),
           Event.msg ("Created config file at: " ++ configFileName)])
      else
        ArgPhase.panicked evs
  | Arg.value v :: rest, inp, out, vb, cf, evs =>
      argLoop fs rest
        (match inp with
         | Inputs.stdin => Inputs.files [v]
         | Inputs.files ps => Inputs.files (ps ++ [v]))
        out vb cf evs
  | Arg.stdoutFlag :: rest, inp, _, vb, cf, evs =>
      argLoop fs rest inp Output.stdout vb cf evs
  | Arg.outputFlag Option.none :: _, _, _, _, _, evs => ArgPhase.missingValue evs
  | Arg.outputFlag (Option.some v) :: rest, inp, _, vb, cf, evs =>
      argLoop fs rest inp (if v = "-" then Output.stdout else Output.file v) vb cf evs
  | Arg.verboseFlag :: rest, inp, out, _, cf, evs =>
      argLoop fs rest inp out true cf evs
  | Arg.configFlag Option.none :: _, _, _, _, _, evs => ArgPhase.missingValue evs
  | Arg.configFlag (Option.some p) :: rest, inp, out, vb, _, evs =>
      argLoop fs rest inp out vb p evs
  | Arg.checkFlag :: rest, inp, _, vb, cf, evs =>
      argLoop fs rest inp Output.check vb cf evs
  | Arg.unexpected tok :: _, _, _, _, _, evs =>
      ArgPhase.earlyOk (evs ++ [Event.msg (unexpectedText tok), Event.msg ("use -h or --help")])

/-- Mirrors the post-loop override: `if matches!(inputs, Inputs::Stdin) &&
matches!(output, Output::None) { output = Output::Stdout; }`. -/
def resolveOutput (inp : Inputs) (out : Output) : Output :=
  if inp.isStdin && out.isNone then Output.stdout else out

/-- The config-resolution block of `main`: open succeeds and the TOML parses
⇒ that config; open succeeds and read or parse fails ⇒ panic (`Option.none`);
open fails ⇒ silently fall back to `Config::default()`. -/
def loadConfig {Config : Type} (ri : RunInput Config) (cf : String) : Option Config :=
  match ri.fs.read cf with
  | FileReadResult.openErr => Option.some ri.defaultConfig
  | FileReadResult.readErr => Option.none
  | FileReadResult.ok s => ri.fromToml s

/-- Events the config-resolution block emits: the config file's open, when it
succeeds. -/
def configEvents {Config : Type} (ri : RunInput Config) (cf : String) : List (Event Config) :=
  match ri.fs.read cf with
  | FileReadResult.openErr => []
  | _ => [Event.configOpened cf]

/-- Whether a path's content, once read, differs from its formatted form —
the condition under which the `Check` branch of `Output::write` returns
`Err(())`. -/
def needsFmt {Config : Type} (ri : RunInput Config) (c : Config) (p : String) : Bool :=
  match ri.fs.read p with
  | FileReadResult.ok s => decide (s ≠ ri.format s c)
  | _ => false

/-- The `for input in inputs.read()` loop over `Inputs::Files(paths)`:
the iterator is lazy, so each file is opened and read only when the loop
reaches it; an open or read failure panics and later paths are never
touched.  `status` is the `exit_status` local (0 initially, set to 1 on a
`Check` mismatch, never reset). -/
def filesLoop {Config : Type} (ri : RunInput Config) (c : Config) (out : Output)
    (vb : Bool) : List String → List (Event Config) → Nat → RunResult Config
  | [], evs, status =>
      ⟨evs, if status = 0 then ExitKind.ok else ExitKind.status status⟩
  | p :: rest, evs, status =>
      match ri.fs.read p with
      | FileReadResult.openErr => ⟨evs, ExitKind.panicked⟩
      | FileReadResult.readErr => ⟨evs ++ [Event.openedForRead p], ExitKind.panicked⟩
      | FileReadResult.ok s =>
          filesLoop ri c out vb rest
            (evs ++ Event.openedForRead p :: Event.formatCall p c ::
              (@Output.write Config out ⟨p, s⟩ (ri.format s c) vb).1)
            (if (@Output.write Config out ⟨p, s⟩ (ri.format s c) vb).2 then 1 else status)

/-- The part of `main` after config resolution: the multi-file/`--output`
assert, then the document loop, then `exit_status`-based termination. -/
def runFromConfig {Config : Type} (ri : RunInput Config) (inp : Inputs) (out : Output)
    (vb : Bool) (c : Config) (evs : List (Event Config)) : RunResult Config :=
  match inp with
  | Inputs.stdin =>
      match ri.stdinText with
      | Option.none => ⟨evs, ExitKind.panicked⟩
      | Option.some s =>
          ⟨evs ++ Event.readStdinEv :: Event.formatCall ("stdin") c ::
              (@Output.write Config out ⟨"stdin", s⟩ (ri.format s c) vb).1,
           if (@Output.write Config out ⟨"stdin", s⟩ (ri.format s c) vb).2 then ExitKind.status 1
           else ExitKind.ok⟩
  | Inputs.files paths =>
      if out.isFile && decide (paths.length > 1) then ⟨evs, ExitKind.panicked⟩
      else filesLoop ri c out vb paths evs 0

/-- Mirrors `fn main() -> Result<(), lexopt::Error>`, end to end. -/
def run {Config : Type} (ri : RunInput Config) (args : List Arg) : RunResult Config :=
  match argLoop ri.fs args Inputs.stdin Output.none false configFileName [] with
  | ArgPhase.earlyOk evs => ⟨evs, ExitKind.ok⟩
  | ArgPhase.panicked evs => ⟨evs, ExitKind.panicked⟩
  | ArgPhase.missingValue evs => ⟨evs, ExitKind.argErr⟩
  | ArgPhase.proceed inp out vb cf evs =>
      match loadConfig ri cf with
      | Option.none => ⟨evs ++ configEvents ri cf, ExitKind.panicked⟩
      | Option.some c =>
          runFromConfig ri inp (resolveOutput inp out) vb c (evs ++ configEvents ri cf)

/-- The output-sink selection a single argument performs, if any; mirrors the
assignments to the `output` local in the three flag arms. -/
def argOut : Arg → Option Output
  | Arg.stdoutFlag => Option.some Output.stdout
  | Arg.outputFlag (Option.some v) =>
      Option.some (if v = "-" then Output.stdout else Output.file v)
  | Arg.checkFlag => Option.some Output.check
  | _ => Option.none

/-- Last element of a list, with a default for the empty list. -/
def lastOut : List Output → Output → Output
  | [], o => o
  | x :: xs, _ => lastOut xs x

/-- The positional path an argument contributes, if any. -/
def argValue : Arg → Option String
  | Arg.value v => Option.some v
  | _ => Option.none

/-- Folding positional paths into the `inputs` local, exactly as the
`Value(v)` arm of the argument loop does. -/
def appendPositional : Inputs → List String → Inputs
  | i, [] => i
  | Inputs.stdin, v :: rest => appendPositional (Inputs.files [v]) rest
  | Inputs.files ps, v :: rest => appendPositional (Inputs.files (ps ++ [v])) rest

/-! ### Concrete fixtures, used by the witness theorems -/

/-- A filesystem holding two Typst files (`a.typ` unformatted, `b.typ`
already formatted); every other path, the config file included, fails to
open. -/
def fsDemo : FS :=
  ⟨fun p =>
      if p = "a.typ" then FileReadResult.ok ("let x=1")
      else if p = "b.typ" then FileReadResult.ok ("let x = 1\n")
      else FileReadResult.openErr,
   fun _ => true⟩

/-- A concrete instantiation with `Config := Nat`: the formatter normalises
`"let x=1"` to `"let x = 1\n"` and leaves everything else alone; the TOML
parser rejects every text (irrelevant here since `fsDemo` has no config
file). -/
def riDemo : RunInput Nat :=
  ⟨fun s _ => if s = ("let x=1") then ("let x = 1\n") else s,
   0, fun _ => Option.none, fsDemo, Option.some ("stdin text")⟩

/-- A filesystem whose config file holds malformed TOML. -/
def fsBadConfig : FS :=
  ⟨fun p => if p = configFileName then FileReadResult.ok ("not toml") else FileReadResult.openErr,
   fun _ => true⟩

/-- The demo run input pointed at the malformed-config filesystem. -/
def riBadConfig : RunInput Nat :=
  ⟨fun s _ => if s = ("let x=1") then ("let x = 1\n") else s,
   0, fun _ => Option.none, fsBadConfig, Option.some ("stdin text")⟩

/-! ### Helper lemmas -/

/-- If the argument loop runs to completion (reaches `proceed`), then it has
emitted no events, the resolved inputs are the initial inputs extended by the
positional tokens in order, and the resolved output is the last
output-affecting flag (or the initial output if there is none). -/
theorem argLoop_proceed_spec {Config : Type} (fs : FS) :
    ∀ (args : List Arg) (i : Inputs) (o : Output) (v : Bool) (cf : String)
      (e : List (Event Config)) (i' : Inputs) (o' : Output) (v' : Bool) (cf' : String)
      (e' : List (Event Config)),
      argLoop fs args i o v cf e = ArgPhase.proceed i' o' v' cf' e' →
      e' = e ∧ i' = appendPositional i (args.filterMap argValue)
        ∧ o' = lastOut (args.filterMap argOut) o := by
  intro args
  induction args with
  | nil =>
      intro i o v cf e i' o' v' cf' e' h
      rw [argLoop] at h
      cases h
      refine ⟨rfl, ?_, rfl⟩
      cases i <;> rfl
  | cons a rest ih =>
      intro i o v cf e i' o' v' cf' e' h
      cases a with
      | version => simp [argLoop] at h
      | help => simp [argLoop] at h
      | makeDefaultConfig =>
          simp only [argLoop] at h
          by_cases hc : fs.createNewOk configFileName = true <;> simp [hc] at h
      | value w =>
          simp only [argLoop] at h
          have := ih _ _ _ _ _ _ _ _ _ _ h
          refine ⟨this.1, ?_, ?_⟩
          · rw [this.2.1]
            cases i <;> simp [List.filterMap, argValue, appendPositional]
          · rw [this.2.2]
            simp [List.filterMap, argValue, argOut]
      | stdoutFlag =>
          simp only [argLoop] at h
          have := ih _ _ _ _ _ _ _ _ _ _ h
          refine ⟨this.1, ?_, ?_⟩
          · rw [this.2.1]; simp [List.filterMap, argValue, argOut]
          · rw [this.2.2]; simp [List.filterMap, argOut, lastOut]
      | outputFlag ov =>
          cases ov with
          | none => simp [argLoop] at h
          | some w =>
              simp only [argLoop] at h
              have := ih _ _ _ _ _ _ _ _ _ _ h
              refine ⟨this.1, ?_, ?_⟩
              · rw [this.2.1]; simp [List.filterMap, argValue, argOut]
              · rw [this.2.2]; simp [List.filterMap, argOut, lastOut]
      | verboseFlag =>
          simp only [argLoop] at h
          have := ih _ _ _ _ _ _ _ _ _ _ h
          refine ⟨this.1, ?_, ?_⟩
          · rw [this.2.1]; simp [List.filterMap, argValue, argOut]
          · rw [this.2.2]; simp [List.filterMap, argOut]
      | configFlag cv =>
          cases cv with
          | none => simp [argLoop] at h
          | some w =>
              simp only [argLoop] at h
              have := ih _ _ _ _ _ _ _ _ _ _ h
              refine ⟨this.1, ?_, ?_⟩
              · rw [this.2.1]; simp [List.filterMap, argValue, argOut]
              · rw [this.2.2]; simp [List.filterMap, argOut]
      | checkFlag =>
          simp only [argLoop] at h
          have := ih _ _ _ _ _ _ _ _ _ _ h
          refine ⟨this.1, ?_, ?_⟩
          · rw [this.2.1]; simp [List.filterMap, argValue, argOut]
          · rw [this.2.2]; simp [List.filterMap, argOut, lastOut]
      | unexpected tok => simp [argLoop] at h

/-- The argument loop processes a concatenation left to right: an early exit
in the first part short-circuits, otherwise the loop continues on the second
part from the state the first part reached. -/
theorem argLoop_append {Config : Type} (fs : FS) :
    ∀ (xs ys : List Arg) (i : Inputs) (o : Output) (v : Bool) (cf : String)
      (e : List (Event Config)),
      argLoop fs (xs ++ ys) i o v cf e =
        match argLoop fs xs i o v cf e with
        | ArgPhase.proceed i' o' v' cf' e' => argLoop fs ys i' o' v' cf' e'
        | r => r := by
  intro xs
  induction xs with
  | nil => intro ys i o v cf e; rw [List.nil_append, argLoop]
  | cons a rest ih =>
      intro ys i o v cf e
      cases a with
      | version => rw [List.cons_append, argLoop, argLoop]
      | help => rw [List.cons_append, argLoop, argLoop]
      | makeDefaultConfig =>
          rw [List.cons_append]
          simp only [argLoop]
          by_cases hc : fs.createNewOk configFileName = true <;> simp [hc]
      | value w => rw [List.cons_append]; simp only [argLoop]; exact ih ys _ _ _ _ _
      | stdoutFlag => rw [List.cons_append]; simp only [argLoop]; exact ih ys _ _ _ _ _
      | outputFlag ov =>
          cases ov with
          | none => rw [List.cons_append, argLoop, argLoop]
          | some w => rw [List.cons_append]; simp only [argLoop]; exact ih ys _ _ _ _ _
      | verboseFlag => rw [List.cons_append]; simp only [argLoop]; exact ih ys _ _ _ _ _
      | configFlag cv =>
          cases cv with
          | none => rw [List.cons_append, argLoop, argLoop]
          | some w => rw [List.cons_append]; simp only [argLoop]; exact ih ys _ _ _ _ _
      | checkFlag => rw [List.cons_append]; simp only [argLoop]; exact ih ys _ _ _ _ _
      | unexpected tok => rw [List.cons_append, argLoop, argLoop]

/-- In check mode, once the input files are all readable, the final exit is
`status 1` exactly when the incoming exit status is already 1 or some file
needs formatting; otherwise it is `ok`. -/
theorem filesLoop_check_exit {Config : Type} (ri : RunInput Config) (c : Config) (vb : Bool) :
    ∀ (paths : List String) (evs : List (Event Config)) (status : Nat),
      (∀ p ∈ paths, (ri.fs.read p).isOk = true) → (status = 0 ∨ status = 1) →
      (filesLoop ri c Output.check vb paths evs status).exit =
        if status = 1 ∨ paths.any (needsFmt ri c) = true then ExitKind.status 1
        else ExitKind.ok := by
  intro paths
  induction paths with
  | nil =>
      intro evs status _ hst
      rw [filesLoop]
      rcases hst with h0 | h1
      · subst h0; simp
      · subst h1; simp
  | cons p rest ih =>
      intro evs status hread hst
      have hp : (ri.fs.read p).isOk = true := hread p (List.mem_cons_self p rest)
      obtain ⟨s, hs⟩ : ∃ s, ri.fs.read p = FileReadResult.ok s := by
        cases hps : ri.fs.read p <;> rw [hps] at hp <;> simp [FileReadResult.isOk] at hp
        exact ⟨_, rfl⟩
      have hrest : ∀ x ∈ rest, (ri.fs.read x).isOk = true :=
        fun x hx => hread x (List.mem_cons_of_mem p hx)
      simp only [filesLoop, hs]
      by_cases hne : s = ri.format s c
      · have hw : (@Output.write Config Output.check ⟨p, s⟩ (ri.format s c) vb).2 = false := by
          simp only [Output.write]
          rw [if_neg (not_not_intro hne)]
        have hnp : needsFmt ri c p = false := by
          simp only [needsFmt, hs]
          exact decide_eq_false (not_not_intro hne)
        rw [hw]
        simp only [Bool.false_eq_true, if_false]
        rw [ih _ _ hrest hst]
        simp [hnp, List.any_cons]
      · have hw : (@Output.write Config Output.check ⟨p, s⟩ (ri.format s c) vb).2 = true := by
          simp only [Output.write]
          rw [if_pos hne]
        have hnp : needsFmt ri c p = true := by
          simp only [needsFmt, hs]
          exact decide_eq_true hne
        rw [hw]
        simp only [if_pos]
        rw [ih _ _ hrest (Or.inr rfl)]
        simp [hnp, List.any_cons]

/-- A single sink dispatch never calls the formatter (the call site is in the
run loop, before `Output::write`). -/
theorem write_no_formatCall {Config : Type} (out : Output) (inp : Input) (f : String)
    (vb : Bool) (n : String) (c' : Config) :
    Event.formatCall n c' ∉ (@Output.write Config out inp f vb).1 := by
  cases out <;> cases vb <;> simp only [Output.write] <;>
    first
      | (split <;> simp)
      | simp

/-- Any formatter invocation recorded by the file loop, beyond those already
in the incoming trace, was made with the loop's `Config` value. -/
theorem filesLoop_formatCall {Config : Type} (ri : RunInput Config) (c : Config)
    (out : Output) (vb : Bool) :
    ∀ (paths : List String) (evs : List (Event Config)) (status : Nat)
      (n : String) (c' : Config),
      Event.formatCall n c' ∈ (filesLoop ri c out vb paths evs status).events →
      Event.formatCall n c' ∈ evs ∨ c' = c := by
  intro paths
  induction paths with
  | nil =>
      intro evs status n c' h
      rw [filesLoop] at h
      exact Or.inl h
  | cons p rest ih =>
      intro evs status n c' h
      cases hr : ri.fs.read p with
      | openErr =>
          simp only [filesLoop, hr] at h
          exact Or.inl h
      | readErr =>
          simp only [filesLoop, hr, List.mem_append, List.mem_singleton] at h
          rcases h with h | h
          · exact Or.inl h
          · simp at h
      | ok s =>
          simp only [filesLoop, hr] at h
          rcases ih _ _ _ _ h with h2 | h2
          · simp only [List.mem_append, List.mem_cons] at h2
            rcases h2 with h2 | h2 | h2 | h2
            · exact Or.inl h2
            · simp at h2
            · cases h2; exact Or.inr rfl
            · exact absurd h2 (write_no_formatCall _ _ _ _ _ _)
          · exact Or.inr h2

/-- Any formatter invocation recorded by the whole post-config phase, beyond
those already in the incoming trace, was made with the resolved `Config`. -/
theorem runFromConfig_formatCall {Config : Type} (ri : RunInput Config) (inp : Inputs)
    (out : Output) (vb : Bool) (c : Config) (evs : List (Event Config))
    (n : String) (c' : Config) :
    Event.formatCall n c' ∈ (runFromConfig ri inp out vb c evs).events →
    Event.formatCall n c' ∈ evs ∨ c' = c := by
  intro h
  cases inp with
  | stdin =>
      cases hst : ri.stdinText with
      | none =>
          simp only [runFromConfig, hst] at h
          exact Or.inl h
      | some s =>
          simp only [runFromConfig, hst, List.mem_append, List.mem_cons] at h
          rcases h with h | h | h | h
          · exact Or.inl h
          · simp at h
          · cases h; exact Or.inr rfl
          · exact absurd h (write_no_formatCall _ _ _ _ _ _)
  | files paths =>
      simp only [runFromConfig] at h
      split at h
      · exact Or.inl h
      · exact filesLoop_formatCall ri c out vb paths evs 0 n c' h

/-- The file loop, started with an exit status of 0 or 1, can only end in
success, check-status 1, or a panic — never any other numeric status. -/
theorem filesLoop_exit_cases {Config : Type} (ri : RunInput Config) (c : Config)
    (out : Output) (vb : Bool) :
    ∀ (paths : List String) (evs : List (Event Config)) (status : Nat),
      status = 0 ∨ status = 1 →
      (filesLoop ri c out vb paths evs status).exit = ExitKind.ok
      ∨ (filesLoop ri c out vb paths evs status).exit = ExitKind.status 1
      ∨ (filesLoop ri c out vb paths evs status).exit = ExitKind.panicked := by
  intro paths
  induction paths with
  | nil =>
      intro evs status hst
      rcases hst with h | h <;> subst h <;> simp [filesLoop]
  | cons p rest ih =>
      intro evs status hst
      cases hr : ri.fs.read p with
      | openErr => simp [filesLoop, hr]
      | readErr => simp [filesLoop, hr]
      | ok s =>
          simp only [filesLoop, hr]
          apply ih
          by_cases hw : (@Output.write Config out ⟨p, s⟩ (ri.format s c) vb).2 = true
          · rw [if_pos hw]; exact Or.inr rfl
          · rw [if_neg hw]; exact hst

/-- The post-config phase can only end in success, check-status 1, or a
panic. -/
theorem runFromConfig_exit_cases {Config : Type} (ri : RunInput Config) (inp : Inputs)
    (out : Output) (vb : Bool) (c : Config) (evs : List (Event Config)) :
    (runFromConfig ri inp out vb c evs).exit = ExitKind.ok
    ∨ (runFromConfig ri inp out vb c evs).exit = ExitKind.status 1
    ∨ (runFromConfig ri inp out vb c evs).exit = ExitKind.panicked := by
  cases inp with
  | stdin =>
      cases hst : ri.stdinText with
      | none => simp [runFromConfig, hst]
      | some s =>
          simp only [runFromConfig, hst]
          by_cases hw : (@Output.write Config out ⟨"stdin", s⟩ (ri.format s c) vb).2 = true
          · simp [hw]
          · simp [hw]
  | files paths =>
      simp only [runFromConfig]
      split
      · simp
      · exact filesLoop_exit_cases ri c out vb paths evs 0 (Or.inl rfl)

/-- The config-resolution block touches no input document and no output
destination. -/
theorem configEvents_not_touch {Config : Type} (ri : RunInput Config) (cf : String) :
    ∀ e ∈ configEvents ri cf, Event.touchesDoc e = false := by
  intro e he
  cases hr : ri.fs.read cf <;> simp [configEvents, hr] at he <;>
    subst he <;> simp [Event.touchesDoc]

/-- An auxiliary unfolding: folding positional tokens into an already-`Files`
input keeps appending in order. -/
theorem appendPositional_files : ∀ (l ps : List String),
    appendPositional (Inputs.files ps) l = Inputs.files (ps ++ l) := by
  intro l
  induction l with
  | nil => intro ps; simp [appendPositional]
  | cons v rest ih =>
      intro ps
      rw [appendPositional, ih]
      simp

/-! ### Claim theorems -/

/-- C1: in check mode, for every finite sequence of input documents the final
process exit status is `status 1` iff at least one document satisfies
`format(content, config) != content`, and `ok` (exit 0) otherwise; and a
status already set to 1 is never reset by later documents. -/
theorem check_mode_correct {Config : Type} (ri : RunInput Config) (c : Config)
    (vb : Bool) (paths : List String) (evs evs' : List (Event Config))
    (h : ∀ p ∈ paths, (ri.fs.read p).isOk = true) :
    ((filesLoop ri c Output.check vb paths evs 0).exit =
        if paths.any (needsFmt ri c) = true then ExitKind.status 1 else ExitKind.ok)
    ∧ (filesLoop ri c Output.check vb paths evs' 1).exit = ExitKind.status 1 := by
  constructor
  · rw [filesLoop_check_exit ri c vb paths evs 0 h (Or.inl rfl)]
    simp
  · rw [filesLoop_check_exit ri c vb paths evs' 1 h (Or.inr rfl)]
    simp

/-- Witness for C1: over `a.typ` (needs formatting) and `b.typ` (clean),
check mode exits with status 1, and a status already at 1 stays 1. -/
theorem check_mode_correct_witness :
    ((filesLoop riDemo 0 Output.check false ["a.typ", "b.typ"] [] 0).exit =
        if (["a.typ", "b.typ"].any (needsFmt riDemo 0)) = true then ExitKind.status 1
        else ExitKind.ok)
    ∧ (filesLoop riDemo 0 Output.check false ["a.typ", "b.typ"] [] 1).exit =
        ExitKind.status 1 :=
  check_mode_correct riDemo 0 false ["a.typ", "b.typ"] [] [] (by decide)

/-- C2: a run whose resolved arguments carry two or more positional paths and
a `ToFile` sink panics (non-zero exit) before any input document is opened,
read, or formatted, and before any destination is written. -/
theorem multifile_tofile_aborts {Config : Type} (ri : RunInput Config) (args : List Arg)
    (paths : List String) (dest : String) (vb : Bool) (cf : String)
    (evs : List (Event Config))
    (h : argLoop ri.fs args Inputs.stdin Output.none false configFileName [] =
        ArgPhase.proceed (Inputs.files paths) (Output.file dest) vb cf evs)
    (hlen : 2 ≤ paths.length) :
    (run ri args).exit = ExitKind.panicked
    ∧ ∀ e ∈ (run ri args).events, Event.touchesDoc e = false := by
  have hevs : evs = [] := (argLoop_proceed_spec ri.fs args _ _ _ _ _ _ _ _ _ _ h).1
  subst hevs
  have hro : resolveOutput (Inputs.files paths) (Output.file dest) = Output.file dest := rfl
  have hcond : ((Output.file dest).isFile && decide (paths.length > 1)) = true := by
    simp [Output.isFile]
    exact hlen
  cases hlc : loadConfig ri cf with
  | none =>
      simp only [run, h, hlc, List.nil_append]
      exact ⟨by trivial, configEvents_not_touch ri cf⟩
  | some c =>
      simp only [run, h, hlc, hro, List.nil_append, runFromConfig, hcond, if_pos]
      exact ⟨by trivial, configEvents_not_touch ri cf⟩

/-- Witness for C2: two files plus `--output o.typ` panic with no document
touched. -/
theorem multifile_tofile_aborts_witness :
    (run riDemo [Arg.value ("a.typ"), Arg.value ("b.typ"),
        Arg.outputFlag (Option.some ("o.typ"))]).exit = ExitKind.panicked
    ∧ ∀ e ∈ (run riDemo [Arg.value ("a.typ"), Arg.value ("b.typ"),
        Arg.outputFlag (Option.some ("o.typ"))]).events, Event.touchesDoc e = false :=
  multifile_tofile_aborts riDemo
    [Arg.value ("a.typ"), Arg.value ("b.typ"), Arg.outputFlag (Option.some ("o.typ"))]
    ["a.typ", "b.typ"] "o.typ" false configFileName [] (by decide) (by decide)

/-- C3: when the resolved input source is stdin and no output-affecting flag
was given (the sink is still the default `None` after flag processing), the
sink is forced to stdout: the formatted text is written to standard output,
no file write ever happens, and the run exits successfully. -/
theorem stdin_defaults_to_stdout {Config : Type} (ri : RunInput Config) (args : List Arg)
    (vb : Bool) (cf : String) (evs : List (Event Config)) (s : String) (c : Config)
    (h : argLoop ri.fs args Inputs.stdin Output.none false configFileName [] =
        ArgPhase.proceed Inputs.stdin Output.none vb cf evs)
    (hs : ri.stdinText = Option.some s)
    (hc : loadConfig ri cf = Option.some c) :
    Event.stdoutWrite (ri.format s c) ∈ (run ri args).events
    ∧ (∀ p d, Event.fileWrite p d ∉ (run ri args).events)
    ∧ (run ri args).exit = ExitKind.ok := by
  have hevs : evs = [] := (argLoop_proceed_spec ri.fs args _ _ _ _ _ _ _ _ _ _ h).1
  subst hevs
  have hro : resolveOutput Inputs.stdin Output.none = Output.stdout := rfl
  simp only [run, h, hc, hro, List.nil_append, runFromConfig, hs]
  refine ⟨?_, ?_, rfl⟩
  · simp [Output.write, List.mem_append]
  · intro p d hmem
    simp only [Output.write, List.mem_append, List.mem_cons] at hmem
    rcases hmem with hmem | hmem | hmem | hmem
    · have := configEvents_not_touch ri cf _ hmem
      simp [Event.touchesDoc] at this
    · cases hmem
    · cases hmem
    · rcases hmem with hmem | hmem
      · cases vb <;> simp at hmem
      · simp at hmem

/-- Witness for C3: a bare `typstfmt` invocation (no arguments) reads stdin
and writes the formatted text to stdout. -/
theorem stdin_defaults_to_stdout_witness :
    Event.stdoutWrite (riDemo.format ("stdin text") 0) ∈ (run riDemo []).events
    ∧ (∀ p d, Event.fileWrite p d ∉ (run riDemo []).events)
    ∧ (run riDemo []).exit = ExitKind.ok :=
  stdin_defaults_to_stdout riDemo [] false configFileName [] "stdin text" 0
    (by decide) (by decide) (by decide)

/-- C4: the `InPlace` (`Output::None`) sink performs a file write only when
the formatted text differs from the content — any recorded write implies the
difference and targets exactly the document's own file with the formatted
text — and conversely a differing document is written. -/
theorem inplace_no_write {Config : Type} (vb : Bool) (inp : Input) (formatted : String) :
    (∀ p d, Event.fileWrite p d ∈ (@Output.write Config Output.none inp formatted vb).1 →
        formatted ≠ inp.content ∧ p = inp.name ∧ d = formatted)
    ∧ (formatted ≠ inp.content →
        Event.fileWrite inp.name formatted ∈
          (@Output.write Config Output.none inp formatted vb).1) := by
  constructor
  · intro p d hmem
    by_cases he : formatted = inp.content
    · simp only [Output.write, if_pos he] at hmem
      simp at hmem
    · simp only [Output.write, if_neg he, List.mem_cons] at hmem
      rcases hmem with hmem | hmem
      · cases hmem
        exact ⟨he, rfl, rfl⟩
      · cases vb <;> simp at hmem
  · intro hne
    simp only [Output.write, if_neg hne]
    exact List.mem_cons_self _ _

/-- Witness for C4: an out-of-date document is written in place with its
formatted text. -/
theorem inplace_no_write_witness :
    Event.fileWrite ("a.typ") ("let x = 1\n")
      ∈ (@Output.write Nat Output.none ⟨"a.typ", "let x=1"⟩ ("let x = 1\n") false).1 :=
  (inplace_no_write false ⟨"a.typ", "let x=1"⟩ ("let x = 1\n")).2 (by decide)

/-- C5 counterexample: a flag requiring a value that is missing is a fatal
condition, yet the process exits with status 1 — exactly the check-mode
mismatch status, so the claimed distinctness fails at this input. -/
theorem missing_value_exit_is_one :
    (run riDemo [Arg.outputFlag Option.none]).exit = ExitKind.argErr
    ∧ exitCode (run riDemo [Arg.outputFlag Option.none]).exit = 1 := by
  exact ⟨rfl, rfl⟩

/-- C5 (amended): every fatal termination has a non-zero exit status; the
panicking fatal conditions (I/O errors, invalid config, the multi-file
conflict, an existing default-config file) exit with 101, distinct from the
check-mode 1, while a missing flag value exits with status 1, the same value
as check mode. -/
theorem fatal_exit_codes {Config : Type} (ri : RunInput Config) (args : List Arg)
    (h : (run ri args).exit ≠ ExitKind.ok) :
    exitCode (run ri args).exit ≠ 0
    ∧ ((run ri args).exit = ExitKind.panicked → exitCode (run ri args).exit = 101)
    ∧ ((run ri args).exit = ExitKind.argErr → exitCode (run ri args).exit = 1) := by
  have hcases : (run ri args).exit = ExitKind.ok ∨ (run ri args).exit = ExitKind.status 1
      ∨ (run ri args).exit = ExitKind.argErr ∨ (run ri args).exit = ExitKind.panicked := by
    rw [run]
    cases hph : argLoop ri.fs args Inputs.stdin Output.none false configFileName
        ([] : List (Event Config)) with
    | earlyOk evs => simp
    | panicked evs => simp
    | missingValue evs => simp
    | proceed inp out vb cf evs =>
        cases hlc : loadConfig ri cf with
        | none => simp [hlc]
        | some c =>
            rcases runFromConfig_exit_cases ri inp (resolveOutput inp out) vb c
                (evs ++ configEvents ri cf) with h1 | h1 | h1 <;> simp [hlc, h1]
  rcases hcases with h1 | h1 | h1 | h1
  · exact absurd h1 h
  · rw [h1]; refine ⟨by simp [exitCode], by simp, by simp⟩
  · rw [h1]; refine ⟨by simp [exitCode], by simp, by simp [exitCode]⟩
  · rw [h1]; refine ⟨by simp [exitCode], by simp [exitCode], by simp⟩

/-- Witness for C5 (amended) at the missing-value input. -/
theorem fatal_exit_codes_witness :
    exitCode (run riDemo [Arg.outputFlag Option.none]).exit ≠ 0
    ∧ ((run riDemo [Arg.outputFlag Option.none]).exit = ExitKind.panicked →
        exitCode (run riDemo [Arg.outputFlag Option.none]).exit = 101)
    ∧ ((run riDemo [Arg.outputFlag Option.none]).exit = ExitKind.argErr →
        exitCode (run riDemo [Arg.outputFlag Option.none]).exit = 1) :=
  fatal_exit_codes riDemo [Arg.outputFlag Option.none] (by decide)

/-- C6: if the argument loop reaches an unrecognized token, the run prints
the unexpected-argument message and a usage hint and exits with status 0,
with no input document read, formatted, or written — the whole run result is
just those two messages. -/
theorem unexpected_token_soft_exit {Config : Type} (ri : RunInput Config)
    (pre rest : List Arg) (tok : String) (inp : Inputs) (out : Output) (vb : Bool)
    (cf : String) (evs : List (Event Config))
    (h : argLoop ri.fs pre Inputs.stdin Output.none false configFileName [] =
        ArgPhase.proceed inp out vb cf evs) :
    run ri (pre ++ Arg.unexpected tok :: rest) =
      ⟨[Event.msg (unexpectedText tok), Event.msg ("use -h or --help")], ExitKind.ok⟩ := by
  have hevs : evs = [] := (argLoop_proceed_spec ri.fs pre _ _ _ _ _ _ _ _ _ _ h).1
  subst hevs
  rw [run, argLoop_append ri.fs pre (Arg.unexpected tok :: rest), h]
  simp [argLoop]

/-- Witness for C6: an unknown flag in the middle of an otherwise valid
invocation exits 0 with only the two usage messages. -/
theorem unexpected_token_soft_exit_witness :
    run riDemo ([Arg.verboseFlag] ++ Arg.unexpected ("--frob") :: [Arg.value ("a.typ")]) =
      ⟨[Event.msg (unexpectedText ("--frob")), Event.msg ("use -h or --help")],
        ExitKind.ok⟩ :=
  unexpected_token_soft_exit riDemo [Arg.verboseFlag] [Arg.value ("a.typ")] "--frob"
    Inputs.stdin Output.none true configFileName [] (by decide)

/-- C7: once the argument loop has resolved, (1) if opening the config file
fails the run proceeds exactly as with the built-in default configuration —
not an error; (2) if the open succeeds but the text does not parse, the run
panics without touching any document; (3) the single resolved config value
is the one passed to every formatter call of the run. -/
theorem config_resolution {Config : Type} (ri : RunInput Config) (args : List Arg)
    (inp : Inputs) (out : Output) (vb : Bool) (cf : String) (evs : List (Event Config))
    (h : argLoop ri.fs args Inputs.stdin Output.none false configFileName [] =
        ArgPhase.proceed inp out vb cf evs) :
    (ri.fs.read cf = FileReadResult.openErr →
        run ri args = runFromConfig ri inp (resolveOutput inp out) vb ri.defaultConfig [])
    ∧ (∀ s, ri.fs.read cf = FileReadResult.ok s → ri.fromToml s = Option.none →
        (run ri args).exit = ExitKind.panicked
        ∧ ∀ e ∈ (run ri args).events, Event.touchesDoc e = false)
    ∧ (∀ c, loadConfig ri cf = Option.some c →
        ∀ n c', Event.formatCall n c' ∈ (run ri args).events → c' = c) := by
  have hevs : evs = [] := (argLoop_proceed_spec ri.fs args _ _ _ _ _ _ _ _ _ _ h).1
  subst hevs
  refine ⟨?_, ?_, ?_⟩
  · intro hopen
    have hlc : loadConfig ri cf = Option.some ri.defaultConfig := by
      simp [loadConfig, hopen]
    have hce : configEvents ri cf = ([] : List (Event Config)) := by
      simp [configEvents, hopen]
    simp only [run, h, hlc, hce, List.nil_append]
  · intro s hok hparse
    have hlc : loadConfig ri cf = (Option.none : Option Config) := by
      simp [loadConfig, hok, hparse]
    have hce : configEvents ri cf = [Event.configOpened cf] := by
      simp [configEvents, hok]
    simp only [run, h, hlc, hce, List.nil_append]
    refine ⟨by trivial, ?_⟩
    intro e he
    simp only [List.mem_singleton] at he
    subst he
    simp [Event.touchesDoc]
  · intro c hlc n c' hmem
    simp only [run, h, hlc, List.nil_append] at hmem
    rcases runFromConfig_formatCall ri inp (resolveOutput inp out) vb c
        (configEvents ri cf) n c' hmem with h2 | h2
    · have := configEvents_not_touch ri cf _ h2
      simp [Event.touchesDoc] at this
    · exact h2

/-- Witness for C7: a malformed config file makes the run panic. -/
theorem config_resolution_witness :
    (run riBadConfig [Arg.value ("a.typ")]).exit = ExitKind.panicked :=
  ((config_resolution riBadConfig [Arg.value ("a.typ")] (Inputs.files ["a.typ"])
      Output.none false configFileName [] (by decide)).2.1 ("not toml")
      (by decide) (by decide)).1

/-- C8: when the argument loop runs to completion, the resolved output sink
is determined solely by the last output-affecting flag (`--stdout`,
`--output`/`-o`, `--check`) of the list, the initial sink serving as default
when there is none — later flags overwrite earlier ones and conflicting
flags are not an error. -/
theorem last_output_flag_wins {Config : Type} (fs : FS) (args : List Arg) (i : Inputs)
    (o : Output) (v : Bool) (cf : String) (e : List (Event Config)) (i' : Inputs)
    (o' : Output) (v' : Bool) (cf' : String) (e' : List (Event Config))
    (h : argLoop fs args i o v cf e = ArgPhase.proceed i' o' v' cf' e') :
    o' = lastOut (args.filterMap argOut) o :=
  (argLoop_proceed_spec fs args i o v cf e i' o' v' cf' e' h).2.2

/-- Witness for C8: with `--stdout --check --output x.typ` the resolved sink
is `ToFile x.typ`. -/
theorem last_output_flag_wins_witness :
    Output.file ("x.typ") =
      lastOut ([Arg.stdoutFlag, Arg.checkFlag,
        Arg.outputFlag (Option.some ("x.typ"))].filterMap argOut) Output.none :=
  last_output_flag_wins fsDemo
    [Arg.stdoutFlag, Arg.checkFlag, Arg.outputFlag (Option.some ("x.typ"))]
    Inputs.stdin Output.none false configFileName ([] : List (Event Nat))
    Inputs.stdin (Output.file ("x.typ")) false configFileName [] (by decide)

/-- C9, the code evaluated at the failing input: with verbose disabled, the
`InPlace` sink still prints the up-to-date notice for an already-formatted
document — the `println!` at the top of the `Output::None` branch of
`Output::write` is not gated on `verbose`. -/
theorem inplace_uptodate_message_without_verbose :
    @Output.write Nat Output.none ⟨"a.typ", "let x = 1\n"⟩ ("let x = 1\n") false =
      ([Event.msg ("file: " ++ q ("a.typ") ++ " up to date.")], false) := by
  decide

/-- C10: a completed argument resolution yields `Stdin` when there are no
positional tokens, and `Files` over exactly the positional tokens in their
given order — hence never an empty `Files` list — when there is at least
one. -/
theorem files_never_empty {Config : Type} (fs : FS) (args : List Arg) (i' : Inputs)
    (o' : Output) (v' : Bool) (cf' : String) (e' : List (Event Config))
    (h : argLoop fs args Inputs.stdin Output.none false configFileName [] =
        ArgPhase.proceed i' o' v' cf' e') :
    (args.filterMap argValue = [] → i' = Inputs.stdin)
    ∧ ∀ p ps, args.filterMap argValue = p :: ps → i' = Inputs.files (p :: ps) := by
  have hi : i' = appendPositional Inputs.stdin (args.filterMap argValue) :=
    (argLoop_proceed_spec fs args _ _ _ _ _ _ _ _ _ _ h).2.1
  constructor
  · intro hnil
    rw [hi, hnil]
    rfl
  · intro p ps hcons
    rw [hi, hcons, appendPositional, appendPositional_files]
    simp

/-- Witness for C10: two positional tokens around a flag resolve to a
two-element `Files` list in order. -/
theorem files_never_empty_witness :
    Inputs.files ["a.typ", "b.typ"] = Inputs.files ("a.typ" :: ["b.typ"]) :=
  (files_never_empty fsDemo
      [Arg.value ("a.typ"), Arg.verboseFlag, Arg.value ("b.typ")]
      (Inputs.files ["a.typ", "b.typ"]) Output.none true configFileName
      ([] : List (Event Nat)) (by decide)).2 ("a.typ") ["b.typ"] (by decide)

end Typstfmt
